import Mathlib

/-!
Verification of the imageking script-to-video pipeline (src/main.py).

The development shallowly embeds the core functions of the program:
`parse_script` (the regex-based script parser), `get_image_params`,
`build_full_prompt`, `generate_image`, `bulk_generate_images` (thread-pool
dispatch, modelled by an explicit completion order), the single-scene
regeneration handler, and `create_video_from_scenes` (frame assembly with
its external effects abstracted into an environment record).

Text is modelled as `List Char`.  The regex
`(\d+)\s*\n(.+?)(?=\n\d+\s*\n|\Z)` used by `parse_script` (with DOTALL and
`re.findall` semantics) is embedded as an executable backtracking scanner
that mirrors the greedy/lazy choices of the Python engine.
-/

namespace ImageKing

/-- Characters of a Python string, in order. -/
abbrev Str := List Char

/-- Python `\d` (ASCII range; the scripts in question use ASCII digits). -/
def isDigitCh (c : Char) : Bool := '0' ≤ c && c ≤ '9'

/-- Python `\s` / `str.strip()` whitespace (ASCII whitespace plus the
Unicode line/paragraph separators and the other whitespace code points the
parser can meet). -/
def isSpaceCh (c : Char) : Bool :=
  c = ' ' || c = '\t' || c = '\n' || c = '\r' || c = '\x0b' || c = '\x0c' ||
  c = '\x85' || c = '\xa0' || c = '\u2028' || c = '\u2029'

/-- Length of the maximal digit run at the head of the string. -/
def digitRun : Str → Nat
  | [] => 0
  | c :: cs => if isDigitCh c then digitRun cs + 1 else 0

/-- Length of the maximal whitespace run at the head of the string. -/
def wsRun : Str → Nat
  | [] => 0
  | c :: cs => if isSpaceCh c then wsRun cs + 1 else 0

/-- Value of a digit string, as Python `int` reads it. -/
def natOfDigits (ds : Str) : Nat :=
  ds.foldl (fun n c => 10 * n + (c.toNat - '0'.toNat)) 0

/-- Whether `\s*\n` can match at the head of the string: the maximal
whitespace run starting here contains a newline (everything before the
first such newline is whitespace). -/
def hasNlInWsRun : Str → Bool
  | [] => false
  | c :: cs => if c = '\n' then true else if isSpaceCh c then hasNlInWsRun cs else false

/-- The lookahead `(?=\n\d+\s*\n|\Z)` of the scene regex, at the given
remainder of the input. -/
def lookaheadOk : Str → Bool
  | [] => true
  | c :: cs =>
    if c = '\n' then
      let d := digitRun cs
      if d = 0 then false else hasNlInWsRun (cs.drop d)
    else false

/-- Lazy `(.+?)` followed by the lookahead: consume at least one character
and stop at the first position where the lookahead holds.  Returns the
block and the unconsumed remainder. -/
def findBlock (acc : Str) : Str → Option (Str × Str)
  | [] => none
  | c :: cs => if lookaheadOk cs then some (acc ++ [c], cs) else findBlock (acc ++ [c]) cs

/-- Greedy `\s*\n` then the block: try the whitespace-run length `w`
downwards; at each `w` with a newline right after, attempt the block match
after that newline, backtracking to a smaller `w` on failure. -/
def tryWsFrom (s2 : Str) : Nat → Option (Str × Str)
  | 0 =>
    if s2.get? 0 = some '\n' then findBlock [] (s2.drop 1) else none
  | w + 1 =>
    if s2.get? (w + 1) = some '\n' then
      match findBlock [] (s2.drop (w + 2)) with
      | some r => some r
      | none => tryWsFrom s2 w
    else tryWsFrom s2 w

/-- One attempt of the scene regex anchored at the current position:
`(\d+)` must be the maximal digit run here (a shorter run leaves a digit,
which `\s*\n` can never consume), then `\s*\n`, then the lazy block. -/
def tryMatch (s : Str) : Option (Nat × Str × Str) :=
  let d := digitRun s
  if d = 0 then none
  else
    let s2 := s.drop d
    match tryWsFrom s2 (wsRun s2) with
    | some (blk, rem) => some (natOfDigits (s.take d), blk, rem)
    | none => none

/-- `re.findall` scan: try a match at each position in turn; on success
continue right after the match, on failure advance one character. -/
def scanAux : Nat → Str → List (Nat × Str)
  | 0, _ => []
  | _ + 1, [] => []
  | fuel + 1, c :: cs =>
    match tryMatch (c :: cs) with
    | some (n, blk, rem) => (n, blk) :: scanAux fuel rem
    | none => scanAux fuel cs

/-- All matches of the scene regex in the text. -/
def reFindAll (s : Str) : List (Nat × Str) := scanAux s.length s

/-- Python `str.strip()` of leading whitespace. -/
def stripL (s : Str) : Str := s.dropWhile isSpaceCh

/-- Python `str.strip()` of trailing whitespace. -/
def stripR (s : Str) : Str := (s.reverse.dropWhile isSpaceCh).reverse

/-- Python `str.strip()`: drop leading and trailing whitespace. -/
def pyStrip (s : Str) : Str := stripR (stripL s)

/-- `block.replace(" ", "\n")`: the special line-separator substitution. -/
def replaceLineSep (s : Str) : Str := s.map (fun c => if c = '\u2028' then '\n' else c)

/-- The per-block normalization done by `parse_script`: `strip` first, then
the line-separator substitution. -/
def normalizeBlock (b : Str) : Str := replaceLineSep (pyStrip b)

/-- The directive marker literal `"Shot on"`. -/
def markerChs : Str := "Shot on".data

/-- Python `s.split(pat, 1)` when `pat` occurs in `s`: split at the first
occurrence, returning the part before and the part after.  `none` when the
pattern does not occur. -/
def splitFirst (pat : Str) : Str → Option (Str × Str)
  | [] => none
  | c :: cs =>
    if pat.isPrefixOf (c :: cs) then some ([], (c :: cs).drop pat.length)
    else
      match splitFirst pat cs with
      | some (a, b) => some (c :: a, b)
      | none => none

/-- The marker split inside `parse_script`: on a normalized block, the text
before the marker (stripped) is the Korean source text and the marker plus
the stripped remainder is the English prompt; without the marker the whole
block (stripped) is the source text and the prompt is empty. -/
def splitBlock (nb : Str) : Str × Str :=
  match splitFirst markerChs nb with
  | some (ko, en) => (pyStrip ko, markerChs ++ pyStrip en)
  | none => (pyStrip nb, [])

/-- A parsed scene, as the dict built by `parse_script`. -/
structure Scene where
  id : Nat
  korean : Str
  prompt_en : Str
  image_b64 : Option Str
deriving DecidableEq, Repr

/-- The scene built from one regex match. -/
def mkScene (n : Nat) (blk : Str) : Scene :=
  let p := splitBlock (normalizeBlock blk)
  { id := n, korean := p.1, prompt_en := p.2, image_b64 := none }

/-- `parse_script`: all regex matches, each turned into a scene. -/
def parse_script (text : Str) : List Scene :=
  (reFindAll text).map (fun nb => mkScene nb.1 nb.2)

/-- The lines of a text, split at `'\n'` (for counting digit-only lines,
the spec-side notion of a numbered block). -/
def splitLines : Str → List Str
  | [] => [[]]
  | c :: cs =>
    if c = '\n' then [] :: splitLines cs
    else
      match splitLines cs with
      | l :: ls => (c :: l) :: ls
      | [] => [[c]]

/-- A line consisting only of digits (and at least one). -/
def isDigitOnlyLine (l : Str) : Bool := !l.isEmpty && l.all isDigitCh

/-- Number of lines of the text that contain only digits. -/
def digitOnlyLineCount (s : Str) : Nat :=
  ((splitLines s).filter isDigitOnlyLine).length

/-- The process-wide configuration read from the UI session state. -/
structure Config where
  image_orientation : Str
  image_quality : Str
  style_preset : Str
  lock_character : Bool
  image_model_label : Str

/-- Python dict `.get(k, d)` over an association list. -/
def dictGet (m : List (Str × Str)) (k : Str) (d : Str) : Str :=
  match m.find? (fun p => p.1 == k) with
  | some p => p.2
  | none => d

/-- `get_image_params`: the orientation label is matched by prefix; square
and landscape have dedicated sizes and everything else falls through to
the portrait size. -/
def get_image_params (orientation quality : Str) : Str × Str :=
  if "정사각형".data.isPrefixOf orientation then ("1024x1024".data, quality)
  else if "가로형".data.isPrefixOf orientation then ("1536x1024".data, quality)
  else ("1024x1536".data, quality)

/-- The style preset table. -/
def STYLE_PRESETS : List (Str × Str) :=
  [("다큐 + 사실적 배경".data,
    ("Style Wrapper:\n" ++
     "Background: documentary-style, semi-realistic environment, neutral color grading, " ++
     "soft cinematic lighting, subtle film grain.\n" ++
     "Characters: realistic human figures or crowds that match the story context.\n" ++
     "Camera: wide cinematic framing with natural depth and gentle atmospheric haze.\n").data),
   ("다큐 + 스틱맨 설명 캐릭터".data,
    ("Style Wrapper:\n" ++
     "Background: semi-realistic cinematic environment, dramatic lighting, soft shadows, mild film grain, " ++
     "dystopian or documentary atmosphere.\n" ++
     "Characters: simple 2D stickman drawn with thick black outlines, white circular face, small black-dot eyes, " ++
     "line-based limbs, cartoon-like contrast against the realistic background.\n" ++
     "Camera: wide cinematic framing, slight depth of field, subtle atmospheric haze.\n").data),
   ("풀 2D 애니메이션".data,
    ("Style Wrapper:\n" ++
     "Background: flat 2D animation style, pastel colors, simple geometric buildings and props.\n" ++
     "Characters: cute 2D stickman-style characters with thick black outlines and expressive poses.\n" ++
     "Camera: simple animation-style wide shot, clean composition, no film grain.\n").data)]

/-- The recurring-character addendum appended when the lock flag is set. -/
def LOCK_CHARACTER_TEXT : Str :=
  ("\nThe main character is a recurring simple 2D stickman narrator with a white circular face " ++
   "and small black-dot eyes, always present somewhere in the scene, explaining or reacting to the situation.\n").data

/-- The image model table. -/
def IMAGE_MODELS : List (Str × Str) :=
  [("OpenAI gpt-image-1".data, "gpt-image-1".data)]

/-- `build_full_prompt`: the selected style wrapper (possibly extended by
the locked-character text) is prefixed to the scene prompt under the
`Scene:` label; with no wrapper the prompt passes through unchanged. -/
def build_full_prompt (cfg : Config) (base_prompt : Str) : Str :=
  let sw := dictGet STYLE_PRESETS cfg.style_preset []
  let sw := if cfg.lock_character then sw ++ LOCK_CHARACTER_TEXT else sw
  if sw = [] then base_prompt else sw ++ "\nScene:\n".data ++ base_prompt

/-- One outbound request to the remote image service. -/
structure ImageRequest where
  model : Str
  prompt : Str
  size : Str
  quality : Str
  n : Nat
deriving DecidableEq, Repr

/-- `generate_image`: an empty prompt returns `None` with no remote call;
otherwise exactly one request is sent and its answer (or its raised
exception, as `Except.error`) is returned.  The second component is the
list of remote calls made. -/
def generate_image (cfg : Config) (remote : ImageRequest → Except String Str) (prompt : Str) :
    Except String (Option Str) × List ImageRequest :=
  if prompt = [] then (Except.ok none, [])
  else
    let sq := get_image_params cfg.image_orientation cfg.image_quality
    let full_prompt := build_full_prompt cfg prompt
    let model := dictGet IMAGE_MODELS cfg.image_model_label "gpt-image-1".data
    let req : ImageRequest := ⟨model, full_prompt, sq.1, sq.2, 1⟩
    match remote req with
    | Except.ok b64 => (Except.ok (some b64), [req])
    | Except.error e => (Except.error e, [req])

/-- Replace the element at an index, leaving the list unchanged when the
index is out of range. -/
def setAt : List Scene → Nat → Scene → List Scene
  | [], _, _ => []
  | _ :: xs, 0, v => v :: xs
  | x :: xs, n + 1, v => x :: setAt xs n v

/-- The write `scenes[idx]["image_b64"] = b` of the dispatch loop. -/
def setSceneImage (scenes : List Scene) (idx : Nat) (b : Option Str) : List Scene :=
  match scenes.get? idx with
  | none => scenes
  | some sc => setAt scenes idx { sc with image_b64 := b }

/-- The read `scenes[idx]["prompt_en"]` done by a worker task. -/
def promptAt (scenes : List Scene) (idx : Nat) : Str :=
  match scenes.get? idx with
  | none => []
  | some sc => sc.prompt_en

/-- `bulk_generate_images`: one task per index, results merged in
completion order (the `order` list).  Each merged task writes its own
scene's `image_b64`; a task whose generation raised makes `fut.result()`
re-raise, which stops the merge loop and propagates the error, leaving all
not-yet-merged scenes unwritten. -/
def bulk_generate_images (gen : Str → Except String (Option Str)) :
    List Scene → List Nat → List Scene × Option String
  | scenes, [] => (scenes, none)
  | scenes, idx :: rest =>
    match gen (promptAt scenes idx) with
    | Except.error e => (scenes, some e)
    | Except.ok b => bulk_generate_images gen (setSceneImage scenes idx b) rest

/-- The regenerate-button handler: one generation for the chosen scene,
whose result overwrites only that scene's `image_b64`; a raised exception
leaves the batch unchanged. -/
def regen_image (gen : Str → Except String (Option Str)) (scenes : List Scene) (i : Nat) :
    List Scene × Option String :=
  match gen (promptAt scenes i) with
  | Except.error e => (scenes, some e)
  | Except.ok b => (setSceneImage scenes i b, none)

/-- The truthiness test `if not scene.get("image_b64")` of the video
assembler: a scene qualifies when its payload is present and non-empty. -/
def hasImage (sc : Scene) : Bool :=
  match sc.image_b64 with
  | none => false
  | some b => !b.isEmpty

/-- The payload of a qualifying scene. -/
def scenePayload (sc : Scene) : Str := sc.image_b64.getD []

/-- Python `int()` on an exact rational: truncation toward zero. -/
def ratTrunc (q : ℚ) : Int := Int.tdiv q.num q.den

/-- `max(1, int(seconds_per_scene * fps))`. -/
def frames_per_scene (seconds_per_scene : ℚ) (fps : Nat) : Nat :=
  max 1 (ratTrunc (seconds_per_scene * fps)).toNat

/-- The frame sequence appended by the writer loop: the qualifying scenes
in list order, each decoded image repeated `frames_per_scene` times. -/
def video_frames {Img Frame : Type} (decodeImage : Str → Img) (asFrame : Img → Frame)
    (scenes : List Scene) (seconds_per_scene : ℚ) (fps : Nat) : List Frame :=
  ((scenes.filter hasImage).map (fun sc => decodeImage (scenePayload sc))).flatMap
    (fun img => List.replicate (frames_per_scene seconds_per_scene fps) (asFrame img))

/-- The external effects of `create_video_from_scenes`: module presence,
image decoding (`b64decode` + `Image.open(...).convert("RGB")`),
`np.asarray`, writer creation, the append/close phase, and the final file
read. -/
structure VideoEnv (Img Frame : Type) where
  has_imageio : Bool
  decodeImage : Str → Img
  asFrame : Img → Frame
  writer_open : Except String Unit
  write_frames : List Frame → Except String Unit
  read_output : Except String (List UInt8)

/-- `create_video_from_scenes`: guard on the encoder module, collect the
qualifying images, fail on an empty set, then writer creation, the frame
loop, and the file read, each converting its failure into a tagged
message. -/
def create_video_from_scenes {Img Frame : Type} (env : VideoEnv Img Frame)
    (scenes : List Scene) (seconds_per_scene : ℚ) (fps : Nat) :
    Option (List UInt8) × Option String :=
  if env.has_imageio = false then (none, some "IMAGEIO_MISSING")
  else
    let images := (scenes.filter hasImage).map (fun sc => env.decodeImage (scenePayload sc))
    if images.isEmpty then (none, some "NO_IMAGES")
    else
      match env.writer_open with
      | Except.error e => (none, some ("WRITER_ERROR: " ++ e))
      | Except.ok _ =>
        match env.write_frames (video_frames env.decodeImage env.asFrame scenes seconds_per_scene fps) with
        | Except.error e => (none, some ("WRITE_FRAME_ERROR: " ++ e))
        | Except.ok _ =>
          match env.read_output with
          | Except.error e => (none, some ("FILE_READ_ERROR: " ++ e))
          | Except.ok bs => (some bs, none)

/-- Insertion into a list of scenes sorted by ascending id. -/
def insertById (sc : Scene) : List Scene → List Scene
  | [] => [sc]
  | t :: ts => if sc.id ≤ t.id then sc :: t :: ts else t :: insertById sc ts

/-- Insertion sort of scenes by ascending id (used only to state the
spec's ascending-id ordering). -/
def sortById : List Scene → List Scene :=
  List.foldr insertById []

/-- Modelled from the spec: the frame sequence the spec describes, taking
the qualifying scenes in ascending `id` order. -/
def video_frames_by_id {Img Frame : Type} (decodeImage : Str → Img) (asFrame : Img → Frame)
    (scenes : List Scene) (seconds_per_scene : ℚ) (fps : Nat) : List Frame :=
  video_frames decodeImage asFrame (sortById scenes) seconds_per_scene fps

/-- A concrete configuration whose style lookup is empty, so the full
prompt equals the base prompt. -/
def cfgPlain : Config :=
  { image_orientation := "정사각형 1:1 (1024x1024)".data
    image_quality := "low".data
    style_preset := "none".data
    lock_character := false
    image_model_label := "OpenAI gpt-image-1".data }

/-- A remote service that answers every request with a fixed payload. -/
def remoteOk : ImageRequest → Except String Str := fun _ => Except.ok "B64".data

/-- The identity-relevant fields of a scene: everything except the
generation result. -/
def sceneMeta (sc : Scene) : Nat × Str × Str := (sc.id, sc.korean, sc.prompt_en)

/-- The per-scene annotation a completed task performs: the scene's own
prompt generates its stored payload. -/
def annotateScene (g : Str → Option Str) (sc : Scene) : Scene :=
  { sc with image_b64 := g sc.prompt_en }

/-- A concrete two-scene batch for the dispatch witnesses. -/
def scenesAB : List Scene :=
  [⟨1, [], "a".data, none⟩, ⟨2, [], "b".data, none⟩]

/-- A concrete generation function for the dispatch witnesses. -/
def genMark : Str → Option Str := fun p => some ('X' :: p)

/-- A generation function that raises on the prompt `"a"` and succeeds on
every other prompt. -/
def genFail : Str → Except String (Option Str) := fun p =>
  if p = "a".data then Except.error "boom" else Except.ok (some "B".data)

/-- A batch with a single scene carrying an image payload. -/
def scenesImg1 : List Scene := [⟨1, [], [], some "P".data⟩]

/-- A batch whose list order disagrees with ascending id order. -/
def scenesBA : List Scene :=
  [⟨2, [], [], some "B".data⟩, ⟨1, [], [], some "A".data⟩]

/-- An environment in which every external step succeeds but the final
file read returns no bytes. -/
def envEmptyRead : VideoEnv Str Str :=
  { has_imageio := true
    decodeImage := fun p => p
    asFrame := fun i => i
    writer_open := Except.ok ()
    write_frames := fun _ => Except.ok ()
    read_output := Except.ok [] }

/-- A well-formed numbered script rendered as text: each block is a digit
label line followed by one body line, every line newline-terminated. -/
def renderBlocks (bs : List (Str × Str)) : Str :=
  bs.flatMap (fun p => p.1 ++ '\n' :: (p.2 ++ ['\n']))

/-- A well-formed block: a non-empty all-digit label and a body line with
no newline and at least one non-whitespace character. -/
abbrev goodBlock (p : Str × Str) : Prop :=
  p.1 ≠ [] ∧ (∀ c ∈ p.1, isDigitCh c = true) ∧ (∀ c ∈ p.2, c ≠ '\n') ∧
    ∃ c ∈ p.2, isSpaceCh c = false

/-- The regex matches on a rendered well-formed script: one per block, in
text order (the final block keeps its trailing newline in the matched
text, because the end-of-input alternative of the lookahead consumes up to
the very end). -/
def expectedMatches : List (Str × Str) → List (Nat × Str)
  | [] => []
  | [p] => [(natOfDigits p.1, p.2 ++ ['\n'])]
  | p :: rest => (natOfDigits p.1, p.2) :: expectedMatches rest

example : reFindAll "x 1\nA cat.".data = [(1, "A cat.".data)] := by decide

example : reFindAll "1\n2\nX".data = [(1, "2\nX".data)] := by decide

example : reFindAll "1\nA\n2\nB".data = [(1, "A".data), (2, "B".data)] := by decide

example : reFindAll "1\nA\n\n2\nB".data = [(1, "A\n".data), (2, "B".data)] := by decide

example : reFindAll "1\n \n2\nB".data = [(1, "2\nB".data)] := by decide

example : reFindAll "12\n".data = [] := by decide

example : reFindAll "1\n\n".data = [(1, "\n".data)] := by decide

example : reFindAll "1\n\n\nA".data = [(1, "A".data)] := by decide

example : reFindAll "3\nC\n1\nA".data = [(3, "C".data), (1, "A".data)] := by decide

example : reFindAll "".data = [] := by decide

example : reFindAll "no numbers here".data = [] := by decide

example :
    parse_script "1\nA cat.\nShot on 35mm.\n\n2\nA dog.".data =
      [⟨1, "A cat.".data, "Shot on35mm.".data, none⟩,
       ⟨2, "A dog.".data, "".data, none⟩] := by decide

example :
    parse_script "1\n  Shot on  35mm  ".data = [⟨1, "".data, "Shot on35mm".data, none⟩] := by
  decide

example :
    parse_script "1\nShot on Shot on X".data =
      [⟨1, "".data, "Shot onShot on X".data, none⟩] := by decide

example :
    get_image_params "가로형 3:2 (1536x1024)".data "low".data = ("1536x1024".data, "low".data) := by
  decide

example : frames_per_scene 3 30 = 90 := by
  have h : (3 : ℚ) * (30 : Nat) = 90 := by norm_num
  unfold frames_per_scene
  rw [h]
  decide

example : frames_per_scene (1/2) 1 = 1 := by
  have h : (1/2 : ℚ) * (1 : Nat) = 1/2 := by norm_num
  have hn : (1/2 : ℚ).num = 1 := by norm_num
  have hd : (1/2 : ℚ).den = 2 := by norm_num
  unfold frames_per_scene ratTrunc
  rw [h, hn, hd]
  decide

/-- C4 counterexample: the unrecognized orientation value `"unknown"` is
resolved to the portrait size `"1024x1536"`, not to the default square
size `"1024x1024"` the claim states. -/
theorem C4_counterexample :
    (get_image_params "unknown".data "low".data).1 = "1024x1536".data ∧
    (get_image_params "unknown".data "low".data).1 ≠ "1024x1024".data := by
  decide

/-- C4 (amended): an orientation label that matches neither the square nor
the landscape prefix — in particular every unrecognized value — resolves
to the portrait size `"1024x1536"` (with the quality passed through), not
to the square default. -/
theorem C4_unrecognized_orientation_is_portrait
    (o q : Str)
    (hsq : "정사각형".data.isPrefixOf o = false)
    (hls : "가로형".data.isPrefixOf o = false) :
    get_image_params o q = ("1024x1536".data, q) := by
  unfold get_image_params
  rw [hsq, hls]
  simp

/-- C4 witness: the amended statement evaluated at the concrete
unrecognized orientation `"unknown"`. -/
theorem C4_witness :
    get_image_params "unknown".data "low".data = ("1024x1536".data, "low".data) :=
  C4_unrecognized_orientation_is_portrait "unknown".data "low".data (by decide) (by decide)

/-- C5 counterexample: the whitespace-only prompt `" "` is not caught by
the `if not prompt` guard — `generate_image` sends one request to the
remote service and returns its answer, instead of failing without a
network call. -/
theorem C5_counterexample :
    (generate_image cfgPlain remoteOk [' ']).2.length = 1 ∧
    (generate_image cfgPlain remoteOk [' ']).1 = Except.ok (some "B64".data) := by
  constructor
  · rfl
  · rfl

/-- C5 (amended): only the empty prompt short-circuits — `generate_image`
on `""` returns `None` having made no remote call, while every non-empty
prompt (whitespace-only ones included) causes exactly one remote call. -/
theorem C5_empty_prompt_no_call :
    ∀ (cfg : Config) (remote : ImageRequest → Except String Str),
      generate_image cfg remote [] = (Except.ok none, []) ∧
      ∀ p : Str, p ≠ [] → (generate_image cfg remote p).2.length = 1 := by
  intro cfg remote
  constructor
  · rfl
  · intro p hp
    unfold generate_image
    rw [if_neg hp]
    dsimp only
    split <;> rfl

/-- C5 witness: the amended statement at the concrete configuration: the
empty prompt makes no call, the single-space prompt makes one. -/
theorem C5_witness :
    generate_image cfgPlain remoteOk [] = (Except.ok none, []) ∧
    (generate_image cfgPlain remoteOk [' ']).2.length = 1 :=
  ⟨(C5_empty_prompt_no_call cfgPlain remoteOk).1,
   (C5_empty_prompt_no_call cfgPlain remoteOk).2 [' '] (by decide)⟩

theorem get?_setAt_ne (l : List Scene) (idx : Nat) (v : Scene) (i : Nat) (h : i ≠ idx) :
    (setAt l idx v).get? i = l.get? i := by
  induction l generalizing idx i with
  | nil => simp [setAt]
  | cons x xs ih =>
    cases idx with
    | zero =>
      cases i with
      | zero => exact absurd rfl h
      | succ i => simp [setAt]
    | succ idx =>
      cases i with
      | zero => simp [setAt]
      | succ i => simpa [setAt] using ih idx i (fun hc => h (by simpa using hc))

theorem get?_setAt_self (l : List Scene) (idx : Nat) (v : Scene) (h : idx < l.length) :
    (setAt l idx v).get? idx = some v := by
  induction l generalizing idx with
  | nil => simp at h
  | cons x xs ih =>
    cases idx with
    | zero => simp [setAt]
    | succ idx => simpa [setAt] using ih idx (by simpa using h)

theorem get?_setSceneImage_ne (scenes : List Scene) (idx : Nat) (b : Option Str) (i : Nat)
    (h : i ≠ idx) : (setSceneImage scenes idx b).get? i = scenes.get? i := by
  unfold setSceneImage
  cases hg : scenes.get? idx with
  | none => rfl
  | some sc => exact get?_setAt_ne scenes idx _ i h

theorem get?_setSceneImage_self (scenes : List Scene) (idx : Nat) (b : Option Str) :
    (setSceneImage scenes idx b).get? idx =
      (scenes.get? idx).map (fun sc => { sc with image_b64 := b }) := by
  unfold setSceneImage
  cases hg : scenes.get? idx with
  | none => exact hg
  | some sc =>
    have hl : idx < scenes.length := by
      by_contra hge
      rw [List.get?_eq_none.2 (Nat.le_of_not_lt hge)] at hg
      exact Option.noConfusion hg
    rw [get?_setAt_self scenes idx _ hl]
    rfl

theorem promptAt_setSceneImage (scenes : List Scene) (idx : Nat) (b : Option Str) (i : Nat) :
    promptAt (setSceneImage scenes idx b) i = promptAt scenes i := by
  by_cases h : i = idx
  · subst h
    unfold promptAt
    rw [get?_setSceneImage_self]
    cases scenes.get? i <;> rfl
  · unfold promptAt
    rw [get?_setSceneImage_ne scenes idx b i h]

theorem meta_setSceneImage (scenes : List Scene) (idx : Nat) (b : Option Str) (i : Nat) :
    ((setSceneImage scenes idx b).get? i).map sceneMeta = (scenes.get? i).map sceneMeta := by
  by_cases h : i = idx
  · subst h
    rw [get?_setSceneImage_self]
    cases scenes.get? i <;> rfl
  · rw [get?_setSceneImage_ne scenes idx b i h]

theorem bulk_ok_none (g : Str → Option Str) (scenes : List Scene) (order : List Nat) :
    (bulk_generate_images (fun p => Except.ok (g p)) scenes order).2 = none := by
  induction order generalizing scenes with
  | nil => rfl
  | cons idx rest ih => exact ih (setSceneImage scenes idx (g (promptAt scenes idx)))

theorem bulk_ok_get? (g : Str → Option Str) (scenes : List Scene) (order : List Nat) (i : Nat) :
    (bulk_generate_images (fun p => Except.ok (g p)) scenes order).1.get? i =
      if i ∈ order then (scenes.get? i).map (annotateScene g) else scenes.get? i := by
  induction order generalizing scenes with
  | nil => simp [bulk_generate_images]
  | cons idx rest ih =>
    show (bulk_generate_images _ (setSceneImage scenes idx (g (promptAt scenes idx))) rest).1.get? i = _
    rw [ih]
    by_cases hrest : i ∈ rest
    · rw [if_pos hrest, if_pos (List.mem_cons_of_mem idx hrest)]
      by_cases hidx : i = idx
      · subst hidx
        rw [get?_setSceneImage_self]
        unfold promptAt
        cases scenes.get? i <;> rfl
      · rw [get?_setSceneImage_ne scenes idx _ i hidx]
    · rw [if_neg hrest]
      by_cases hidx : i = idx
      · subst hidx
        rw [if_pos (List.mem_cons_self i rest), get?_setSceneImage_self]
        unfold promptAt
        cases scenes.get? i <;> rfl
      · rw [if_neg (by simp [hidx, hrest]), get?_setSceneImage_ne scenes idx _ i hidx]

/-- C1: when every task completes with a result, bulk dispatch is
independent of the completion order: for every completion order (any
permutation of the task indices) the final batch annotates each scene
with the payload generated from that scene's own prompt, and nothing
else. -/
theorem C1_dispatch_order_independent (g : Str → Option Str) (scenes : List Scene)
    (order : List Nat) (h : order.Perm (List.range scenes.length)) :
    bulk_generate_images (fun p => Except.ok (g p)) scenes order =
      (scenes.map (annotateScene g), none) := by
  have hmem : ∀ i, i ∈ order ↔ i < scenes.length := by
    intro i
    rw [h.mem_iff, List.mem_range]
  refine Prod.ext ?_ (bulk_ok_none g scenes order)
  apply List.ext_get?
  intro i
  rw [bulk_ok_get?, List.get?_map]
  by_cases hi : i < scenes.length
  · rw [if_pos ((hmem i).2 hi)]
  · rw [if_neg (fun hc => hi ((hmem i).1 hc)), List.get?_eq_none.2 (Nat.le_of_not_lt hi)]
    rfl

/-- C1 witness: the theorem applied to a two-scene batch with the reversed
completion order, every hypothesis discharged by computation. -/
theorem C1_witness :
    bulk_generate_images (fun p => Except.ok (genMark p)) scenesAB [1, 0] =
      (scenesAB.map (annotateScene genMark), none) :=
  C1_dispatch_order_independent genMark scenesAB [1, 0] (by decide)

/-- C2 counterexample: in the batch `scenesAB`, scene 1's task raises and
completes first; the exception escapes the dispatcher (it is not recorded
anywhere — `Scene` has no error field) and scene 2, whose own task
`genFail "b"` would succeed, is left without its result. -/
theorem C2_counterexample :
    bulk_generate_images genFail scenesAB [0, 1] = (scenesAB, some "boom") ∧
    ((bulk_generate_images genFail scenesAB [0, 1]).1.get? 1).map Scene.image_b64 =
      some none ∧
    genFail "b".data = Except.ok (some "B".data) := by
  refine ⟨rfl, rfl, rfl⟩

/-- C2 (amended): an exception inside one scene's task is not caught: the
first raising task (in completion order) makes `fut.result()` re-raise,
the error propagates out of `bulk_generate_images`, and the batch is left
exactly as the earlier-completing tasks wrote it — the scenes merged after
the failing one never receive their results. -/
theorem C2_failure_aborts_merge (gen : Str → Except String (Option Str))
    (scenes : List Scene) (pre : List Nat) (j : Nat) (post : List Nat) (e : String)
    (hpre : ∀ i ∈ pre, ∃ b, gen (promptAt scenes i) = Except.ok b)
    (hj : gen (promptAt scenes j) = Except.error e) :
    bulk_generate_images gen scenes (pre ++ j :: post) =
      ((bulk_generate_images gen scenes pre).1, some e) := by
  induction pre generalizing scenes with
  | nil =>
    show (match gen (promptAt scenes j) with
      | Except.error e => (scenes, some e)
      | Except.ok b => bulk_generate_images gen (setSceneImage scenes j b) post) = _
    rw [hj]
    rfl
  | cons i pre' ih =>
    obtain ⟨b, hb⟩ := hpre i (List.mem_cons_self i pre')
    have hpre' : ∀ k ∈ pre', ∃ c,
        gen (promptAt (setSceneImage scenes i b) k) = Except.ok c := by
      intro k hk
      rw [promptAt_setSceneImage]
      exact hpre k (List.mem_cons_of_mem i hk)
    have hj' : gen (promptAt (setSceneImage scenes i b) j) = Except.error e := by
      rw [promptAt_setSceneImage]
      exact hj
    have hstep : bulk_generate_images gen scenes ((i :: pre') ++ j :: post) =
        bulk_generate_images gen (setSceneImage scenes i b) (pre' ++ j :: post) := by
      show (match gen (promptAt scenes i) with
        | Except.error e => (scenes, some e)
        | Except.ok b =>
            bulk_generate_images gen (setSceneImage scenes i b) (pre' ++ j :: post)) = _
      rw [hb]
    have hstep2 : bulk_generate_images gen scenes (i :: pre') =
        bulk_generate_images gen (setSceneImage scenes i b) pre' := by
      show (match gen (promptAt scenes i) with
        | Except.error e => (scenes, some e)
        | Except.ok b => bulk_generate_images gen (setSceneImage scenes i b) pre') = _
      rw [hb]
    rw [hstep, hstep2, ih (setSceneImage scenes i b) hpre' hj']

/-- C2 witness: the amended statement at the concrete batch, with the
succeeding task (scene 2) completing before the raising one (scene 1). -/
theorem C2_witness :
    bulk_generate_images genFail scenesAB [1, 0] =
      ((bulk_generate_images genFail scenesAB [1]).1, some "boom") :=
  C2_failure_aborts_merge genFail scenesAB [1] 0 [] "boom"
    (by
      intro i hi
      have h1 : i = 1 := by simpa using hi
      subst h1
      exact ⟨some "B".data, rfl⟩)
    rfl

/-- C9: both write paths touch only the generation-result slot: bulk
dispatch preserves every scene's `id`, source text and prompt whatever the
completion order and outcome, and single-scene regeneration leaves every
sibling scene entirely unchanged and preserves the targeted scene's
identity fields. -/
theorem C9_writes_only_result_field :
    (∀ (gen : Str → Except String (Option Str)) (scenes : List Scene) (order : List Nat)
        (i : Nat),
        ((bulk_generate_images gen scenes order).1.get? i).map sceneMeta =
          (scenes.get? i).map sceneMeta) ∧
    (∀ (gen : Str → Except String (Option Str)) (scenes : List Scene) (i j : Nat), j ≠ i →
        (regen_image gen scenes i).1.get? j = scenes.get? j) ∧
    (∀ (gen : Str → Except String (Option Str)) (scenes : List Scene) (i : Nat),
        ((regen_image gen scenes i).1.get? i).map sceneMeta =
          (scenes.get? i).map sceneMeta) := by
  refine ⟨?_, ?_, ?_⟩
  · intro gen scenes order
    induction order generalizing scenes with
    | nil => intro i; rfl
    | cons idx rest ih =>
      intro i
      show ((match gen (promptAt scenes idx) with
        | Except.error e => (scenes, some e)
        | Except.ok b =>
            bulk_generate_images gen (setSceneImage scenes idx b) rest).1.get? i).map sceneMeta = _
      cases gen (promptAt scenes idx) with
      | error e => rfl
      | ok b => rw [ih (setSceneImage scenes idx b) i, meta_setSceneImage]
  · intro gen scenes i j hj
    unfold regen_image
    cases gen (promptAt scenes i) with
    | error e => rfl
    | ok b => exact get?_setSceneImage_ne scenes i b j hj
  · intro gen scenes i
    unfold regen_image
    cases gen (promptAt scenes i) with
    | error e => rfl
    | ok b => exact meta_setSceneImage scenes i b i

/-- C9 witness: the three conjuncts instantiated on the concrete batch:
bulk dispatch with completion order `[1, 0]` keeps both scenes' identity
fields, and regenerating scene at index 0 leaves index 1 untouched. -/
theorem C9_witness :
    ((bulk_generate_images genFail scenesAB [1, 0]).1.get? 0).map sceneMeta =
      (scenesAB.get? 0).map sceneMeta ∧
    (regen_image genFail scenesAB 0).1.get? 1 = scenesAB.get? 1 ∧
    ((regen_image genFail scenesAB 0).1.get? 0).map sceneMeta =
      (scenesAB.get? 0).map sceneMeta :=
  ⟨C9_writes_only_result_field.1 genFail scenesAB [1, 0] 0,
   C9_writes_only_result_field.2.1 genFail scenesAB 0 1 (by decide),
   C9_writes_only_result_field.2.2 genFail scenesAB 0⟩

theorem video_frames_cons {Img Frame : Type} (d : Str → Img) (f : Img → Frame)
    (sc : Scene) (rest : List Scene) (s : ℚ) (fps : Nat) :
    video_frames d f (sc :: rest) s fps =
      (if hasImage sc then List.replicate (frames_per_scene s fps) (f (d (scenePayload sc)))
       else []) ++ video_frames d f rest s fps := by
  by_cases h : hasImage sc
  · simp [video_frames, List.filter_cons, h]
  · simp [video_frames, List.filter_cons, h]

theorem frames_per_scene_11_4 : frames_per_scene (11/4) 1 = 2 := by
  have h : (11/4 : ℚ) * (1 : Nat) = 11/4 := by norm_num
  have hn : (11/4 : ℚ).num = 11 := by norm_num
  have hd : (11/4 : ℚ).den = 4 := by norm_num
  unfold frames_per_scene ratTrunc
  rw [h, hn, hd]
  decide

/-- C6 counterexample: with one image, `seconds_per_scene = 11/4` and
`frame_rate = 1`, the writer loop emits `max(1, int(11/4)) = 2` frames,
while the claimed `k * max(1, round(s*f))` is `3` — the code truncates,
it does not round. -/
theorem C6_counterexample :
    (video_frames (fun p => p) (fun i => i) scenesImg1 (11/4) 1).length = 2 ∧
    (scenesImg1.filter hasImage).length * max 1 (round ((11/4 : ℚ) * (1 : Nat))).toNat = 3 ∧
    (2 : Nat) ≠ 3 := by
  refine ⟨?_, ?_, by decide⟩
  · unfold video_frames
    rw [frames_per_scene_11_4]
    decide
  · have h : (11/4 : ℚ) * (1 : Nat) = 11/4 := by norm_num
    have hr : round ((11/4 : ℚ)) = 3 := by
      rw [round_eq]
      norm_num
    rw [h, hr]
    decide

/-- C6 (amended): for a batch with `k` qualifying images the frame stream
holds exactly `k * max(1, int(s*f))` frames — truncation, not rounding —
and each qualifying scene contributes one run of `max(1, int(s*f))`
consecutive copies of its frame. -/
theorem C6_frame_count {Img Frame : Type} (d : Str → Img) (f : Img → Frame)
    (scenes : List Scene) (s : ℚ) (fps : Nat) :
    (video_frames d f scenes s fps).length =
      (scenes.filter hasImage).length * frames_per_scene s fps ∧
    ∀ sc rest, video_frames d f (sc :: rest) s fps =
      (if hasImage sc then List.replicate (frames_per_scene s fps) (f (d (scenePayload sc)))
       else []) ++ video_frames d f rest s fps := by
  constructor
  · induction scenes with
    | nil => simp [video_frames]
    | cons sc rest ih =>
      rw [video_frames_cons, List.length_append, ih, List.filter_cons]
      by_cases h : hasImage sc
      · simp [h, Nat.succ_mul, Nat.add_comm]
      · simp [h]
  · intro sc rest
    exact video_frames_cons d f sc rest s fps

theorem frames_per_scene_1_1 : frames_per_scene 1 1 = 1 := by
  have h : (1 : ℚ) * (1 : Nat) = 1 := by norm_num
  unfold frames_per_scene
  rw [h]
  decide

/-- C7 counterexample: for the batch `[id 2, id 1]` the frames are
appended in list order (`B` before `A`), not in the ascending-id order the
claim states (`A` before `B`). -/
theorem C7_counterexample :
    video_frames (fun p => p) (fun i => i) scenesBA 1 1 = ["B".data, "A".data] ∧
    video_frames_by_id (fun p => p) (fun i => i) scenesBA 1 1 = ["A".data, "B".data] ∧
    video_frames (fun p => p) (fun i => i) scenesBA 1 1 ≠
      video_frames_by_id (fun p => p) (fun i => i) scenesBA 1 1 := by
  refine ⟨?_, ?_, ?_⟩
  · unfold video_frames
    rw [frames_per_scene_1_1]
    decide
  · unfold video_frames_by_id video_frames
    rw [frames_per_scene_1_1]
    decide
  · unfold video_frames_by_id video_frames
    rw [frames_per_scene_1_1]
    decide

/-- C7 (amended): the assembler takes the qualifying scenes in the order
they appear in the scenes list — splitting the list splits the frame
stream with no interleaving, and a single qualifying scene contributes
exactly its own run of frames.  Ascending-id order is obtained only when
the list itself is in that order. -/
theorem C7_frames_follow_list_order {Img Frame : Type} (d : Str → Img) (f : Img → Frame)
    (s : ℚ) (fps : Nat) :
    (∀ pre post : List Scene,
        video_frames d f (pre ++ post) s fps =
          video_frames d f pre s fps ++ video_frames d f post s fps) ∧
    ∀ sc : Scene, video_frames d f [sc] s fps =
      if hasImage sc then List.replicate (frames_per_scene s fps) (f (d (scenePayload sc)))
      else [] := by
  constructor
  · intro pre post
    induction pre with
    | nil => rfl
    | cons sc rest ih =>
      rw [List.cons_append, video_frames_cons, video_frames_cons, ih, List.append_assoc]
  · intro sc
    rw [video_frames_cons]
    cases h : hasImage sc <;> simp [video_frames]

/-- C10 counterexample: when the read-back of the output file yields zero
bytes, `create_video_from_scenes` still returns the success shape
`(video_bytes, None)` with `video_bytes` empty — the code never checks
that the byte string is non-empty, refuting the claim's "non-empty bytes"
part. -/
theorem C10_counterexample :
    create_video_from_scenes envEmptyRead scenesImg1 1 1 = (some [], none) := by
  rfl

theorem string_append_ne_empty (a b : String) (h : a.length ≠ 0) : a ++ b ≠ "" := by
  intro hc
  have hl : (a ++ b).length = 0 := by rw [hc]; rfl
  rw [String.length_append] at hl
  exact h (Nat.eq_zero_of_add_eq_zero_right hl)

/-- C10 (amended): on every path `create_video_from_scenes` returns
exactly one of the pair non-`None`: each failure path yields
`(None, msg)` with a non-empty tagged message, and the success path
yields `(bytes, None)` where `bytes` is whatever the file read returned —
the code does not guarantee those bytes are non-empty. -/
theorem C10_result_shape {Img Frame : Type} (env : VideoEnv Img Frame)
    (scenes : List Scene) (s : ℚ) (fps : Nat) :
    (∃ bs, create_video_from_scenes env scenes s fps = (some bs, none)) ∨
    ∃ m, create_video_from_scenes env scenes s fps = (none, some m) ∧ m ≠ "" := by
  unfold create_video_from_scenes
  by_cases h1 : env.has_imageio = false
  · right
    exact ⟨"IMAGEIO_MISSING", by rw [if_pos h1], by decide⟩
  · rw [if_neg h1]
    dsimp only
    by_cases h2 : ((scenes.filter hasImage).map fun sc => env.decodeImage (scenePayload sc)).isEmpty
    · right
      exact ⟨"NO_IMAGES", by rw [if_pos h2], by decide⟩
    · rw [if_neg h2]
      cases hw : env.writer_open with
      | error e =>
        right
        exact ⟨"WRITER_ERROR: " ++ e, rfl, string_append_ne_empty _ e (by decide)⟩
      | ok u =>
        cases hf : env.write_frames (video_frames env.decodeImage env.asFrame scenes s fps) with
        | error e =>
          right
          exact ⟨"WRITE_FRAME_ERROR: " ++ e, rfl, string_append_ne_empty _ e (by decide)⟩
        | ok v =>
          cases hr : env.read_output with
          | error e =>
            right
            exact ⟨"FILE_READ_ERROR: " ++ e, rfl, string_append_ne_empty _ e (by decide)⟩
          | ok bs =>
            left
            exact ⟨bs, rfl⟩

theorem stripL_decomp (s : Str) :
    s = s.takeWhile isSpaceCh ++ stripL s ∧ ∀ c ∈ s.takeWhile isSpaceCh, isSpaceCh c = true := by
  constructor
  · exact (List.takeWhile_append_dropWhile (p := isSpaceCh) (l := s)).symm
  · intro c hc
    exact List.mem_takeWhile_imp hc

theorem stripR_decomp (s : Str) :
    s = stripR s ++ (s.reverse.takeWhile isSpaceCh).reverse ∧
    ∀ c ∈ (s.reverse.takeWhile isSpaceCh).reverse, isSpaceCh c = true := by
  constructor
  · have h := List.takeWhile_append_dropWhile (p := isSpaceCh) (l := s.reverse)
    calc s = s.reverse.reverse := (List.reverse_reverse s).symm
    _ = (s.reverse.takeWhile isSpaceCh ++ s.reverse.dropWhile isSpaceCh).reverse := by rw [h]
    _ = (s.reverse.dropWhile isSpaceCh).reverse ++ (s.reverse.takeWhile isSpaceCh).reverse := by
        rw [List.reverse_append]
    _ = stripR s ++ (s.reverse.takeWhile isSpaceCh).reverse := rfl
  · intro c hc
    exact List.mem_takeWhile_imp (List.mem_reverse.1 hc)

theorem pyStrip_decomp (s : Str) :
    ∃ w1 w2 : Str, (∀ c ∈ w1, isSpaceCh c = true) ∧ (∀ c ∈ w2, isSpaceCh c = true) ∧
      s = w1 ++ pyStrip s ++ w2 := by
  obtain ⟨h1, h1w⟩ := stripL_decomp s
  obtain ⟨h2, h2w⟩ := stripR_decomp (stripL s)
  refine ⟨s.takeWhile isSpaceCh, ((stripL s).reverse.takeWhile isSpaceCh).reverse, h1w, h2w, ?_⟩
  calc s = s.takeWhile isSpaceCh ++ stripL s := h1
  _ = s.takeWhile isSpaceCh ++
      (stripR (stripL s) ++ ((stripL s).reverse.takeWhile isSpaceCh).reverse) := by rw [← h2]
  _ = s.takeWhile isSpaceCh ++ pyStrip s ++ ((stripL s).reverse.takeWhile isSpaceCh).reverse := by
      rw [List.append_assoc]
      rfl

theorem splitFirst_eq_append (pat : Str) :
    ∀ s a c : Str, splitFirst pat s = some (a, c) → s = a ++ pat ++ c := by
  intro s
  induction s with
  | nil => intro a c h; exact absurd h (by simp [splitFirst])
  | cons x xs ih =>
    intro a c h
    by_cases hp : pat.isPrefixOf (x :: xs)
    · rw [splitFirst, if_pos hp] at h
      obtain ⟨t, ht⟩ := List.isPrefixOf_iff_prefix.1 hp
      cases h
      calc (x :: xs : Str) = pat ++ t := ht.symm
      _ = [] ++ pat ++ ((pat ++ t).drop pat.length) := by rw [List.drop_left]; rfl
      _ = [] ++ pat ++ ((x :: xs : Str).drop pat.length) := by rw [ht]
    · rw [splitFirst, if_neg hp] at h
      cases hrec : splitFirst pat xs with
      | none => rw [hrec] at h; exact absurd h (by simp)
      | some ab =>
        obtain ⟨a', c'⟩ := ab
        rw [hrec] at h
        dsimp only at h
        cases h
        have hxs : xs = a' ++ pat ++ c := ih a' c hrec
        show x :: xs = (x :: a') ++ pat ++ c
        rw [hxs]
        rfl

/-- C8: when the marker occurs in a (normalized) block, the split is
lossless modulo whitespace trimming: the block is the parsed source text
and the directive remainder glued around the marker, up to whitespace at
the four trim boundaries, and the parsed prompt begins with the marker
literal itself. -/
theorem C8_marker_split_lossless (b ko en : Str)
    (h : splitFirst markerChs (normalizeBlock b) = some (ko, en)) :
    (∃ w1 w2 w3 w4 : Str,
      (∀ c ∈ w1, isSpaceCh c = true) ∧ (∀ c ∈ w2, isSpaceCh c = true) ∧
      (∀ c ∈ w3, isSpaceCh c = true) ∧ (∀ c ∈ w4, isSpaceCh c = true) ∧
      normalizeBlock b =
        w1 ++ (splitBlock (normalizeBlock b)).1 ++ w2 ++ markerChs ++
          w3 ++ pyStrip en ++ w4) ∧
    (splitBlock (normalizeBlock b)).2 = markerChs ++ pyStrip en ∧
    markerChs.isPrefixOf (splitBlock (normalizeBlock b)).2 = true := by
  have hsplit : splitBlock (normalizeBlock b) = (pyStrip ko, markerChs ++ pyStrip en) := by
    unfold splitBlock
    rw [h]
  have heq : normalizeBlock b = ko ++ markerChs ++ en :=
    splitFirst_eq_append markerChs (normalizeBlock b) ko en h
  obtain ⟨w1, w2, hw1, hw2, hko⟩ := pyStrip_decomp ko
  obtain ⟨w3, w4, hw3, hw4, hen⟩ := pyStrip_decomp en
  refine ⟨⟨w1, w2, w3, w4, hw1, hw2, hw3, hw4, ?_⟩, by rw [hsplit], ?_⟩
  · rw [hsplit]
    calc normalizeBlock b = ko ++ markerChs ++ en := heq
    _ = (w1 ++ pyStrip ko ++ w2) ++ markerChs ++ (w3 ++ pyStrip en ++ w4) := by
        rw [← hko, ← hen]
    _ = w1 ++ pyStrip ko ++ w2 ++ markerChs ++ w3 ++ pyStrip en ++ w4 := by
        simp [List.append_assoc]
  · rw [hsplit]
    exact List.isPrefixOf_iff_prefix.2 ⟨pyStrip en, rfl⟩

/-- C8 witness: the theorem applied to the concrete block
`"A cat.\nShot on 35mm."`, whose marker split is computed by `decide`. -/
theorem C8_witness :
    (∃ w1 w2 w3 w4 : Str,
      (∀ c ∈ w1, isSpaceCh c = true) ∧ (∀ c ∈ w2, isSpaceCh c = true) ∧
      (∀ c ∈ w3, isSpaceCh c = true) ∧ (∀ c ∈ w4, isSpaceCh c = true) ∧
      normalizeBlock "A cat.\nShot on 35mm.".data =
        w1 ++ (splitBlock (normalizeBlock "A cat.\nShot on 35mm.".data)).1 ++ w2 ++ markerChs ++
          w3 ++ pyStrip " 35mm.".data ++ w4) ∧
    (splitBlock (normalizeBlock "A cat.\nShot on 35mm.".data)).2 =
      markerChs ++ pyStrip " 35mm.".data ∧
    markerChs.isPrefixOf (splitBlock (normalizeBlock "A cat.\nShot on 35mm.".data)).2 = true :=
  C8_marker_split_lossless "A cat.\nShot on 35mm.".data "A cat.\n".data " 35mm.".data (by decide)

theorem digitRun_append_nl (ds t : Str) (h : ∀ c ∈ ds, isDigitCh c = true) :
    digitRun (ds ++ '\n' :: t) = ds.length := by
  induction ds with
  | nil =>
    have hnl : isDigitCh '\n' = false := by decide
    simp [digitRun, hnl]
  | cons c cs ih =>
    have hc : isDigitCh c = true := h c (List.mem_cons_self c cs)
    have ih' := ih (fun x hx => h x (List.mem_cons_of_mem c hx))
    simp [digitRun, hc, ih']

theorem wsRun_append_left (b r : Str) (h : ∃ c ∈ b, isSpaceCh c = false) :
    wsRun (b ++ r) = wsRun b := by
  induction b with
  | nil => obtain ⟨c, hc, _⟩ := h; exact absurd hc (List.not_mem_nil c)
  | cons c cs ih =>
    by_cases hc : isSpaceCh c
    · have hcs : ∃ x ∈ cs, isSpaceCh x = false := by
        obtain ⟨x, hx, hxf⟩ := h
        cases List.mem_cons.1 hx with
        | inl he => rw [he] at hxf; rw [hxf] at hc; exact absurd hc (by simp)
        | inr hm => exact ⟨x, hm, hxf⟩
      simp [wsRun, hc, ih hcs]
    · simp [wsRun, hc]

theorem wsRun_lt_length (b : Str) (h : ∃ c ∈ b, isSpaceCh c = false) :
    wsRun b < b.length := by
  induction b with
  | nil => obtain ⟨c, hc, _⟩ := h; exact absurd hc (List.not_mem_nil c)
  | cons c cs ih =>
    by_cases hc : isSpaceCh c
    · have hcs : ∃ x ∈ cs, isSpaceCh x = false := by
        obtain ⟨x, hx, hxf⟩ := h
        cases List.mem_cons.1 hx with
        | inl he => rw [he] at hxf; rw [hxf] at hc; exact absurd hc (by simp)
        | inr hm => exact ⟨x, hm, hxf⟩
      have := ih hcs
      simp only [wsRun, hc, if_true, List.length_cons]
      omega
    · simp [wsRun, hc]

theorem lookahead_false_cons (c : Char) (t : Str) (h : c ≠ '\n') :
    lookaheadOk (c :: t) = false := by
  simp [lookaheadOk, h]

theorem lookahead_nl_digits (ds t : Str) (hne : ds ≠ []) (hd : ∀ c ∈ ds, isDigitCh c = true) :
    lookaheadOk ('\n' :: (ds ++ '\n' :: t)) = true := by
  have h1 : digitRun (ds ++ '\n' :: t) = ds.length := digitRun_append_nl ds t hd
  have h2 : ds.length ≠ 0 := by
    intro hc
    exact hne (List.length_eq_zero.1 hc)
  simp only [lookaheadOk, if_pos rfl, h1, h2, if_neg h2, List.drop_left]
  rfl

theorem tryWsFrom_no_nl (s2 : Str) :
    ∀ w, (∀ k, 1 ≤ k → k ≤ w → ¬s2.get? k = some '\n') → tryWsFrom s2 w = tryWsFrom s2 0 := by
  intro w
  induction w with
  | zero => intro _; rfl
  | succ w ih =>
    intro h
    conv_lhs => rw [tryWsFrom]
    rw [if_neg (h (w + 1) (by omega) (Nat.le_refl _))]
    exact ih fun k hk1 hk2 => h k hk1 (Nat.le_succ_of_le hk2)

theorem findBlock_through (b : Str) (hbne : b ≠ []) (hb : ∀ c ∈ b, c ≠ '\n') :
    ∀ acc rest, lookaheadOk rest = true → findBlock acc (b ++ rest) = some (acc ++ b, rest) := by
  induction b with
  | nil => exact absurd rfl hbne
  | cons c cs ih =>
    intro acc rest hla
    cases cs with
    | nil =>
      show findBlock acc (c :: rest) = _
      rw [findBlock, if_pos hla]
    | cons c2 cs2 =>
      have hfalse : lookaheadOk ((c2 :: cs2) ++ rest) = false :=
        lookahead_false_cons c2 (cs2 ++ rest) (hb c2 (by simp))
      show findBlock acc (c :: ((c2 :: cs2) ++ rest)) = _
      rw [findBlock, hfalse, if_neg (by simp)]
      rw [ih (by simp) (fun x hx => hb x (List.mem_cons_of_mem c hx)) (acc ++ [c]) rest hla]
      simp

theorem findBlock_last (b : Str) (hb : ∀ c ∈ b, c ≠ '\n') :
    ∀ acc, findBlock acc (b ++ ['\n']) = some (acc ++ b ++ ['\n'], []) := by
  induction b with
  | nil =>
    intro acc
    show findBlock acc ['\n'] = _
    rw [findBlock]
    simp [lookaheadOk]
  | cons c cs ih =>
    intro acc
    have hfalse : lookaheadOk (cs ++ ['\n']) = false := by
      cases cs with
      | nil => decide
      | cons c2 cs2 => exact lookahead_false_cons c2 (cs2 ++ ['\n']) (hb c2 (by simp))
    show findBlock acc (c :: (cs ++ ['\n'])) = _
    rw [findBlock, hfalse, if_neg (by simp)]
    rw [ih (fun x hx => hb x (List.mem_cons_of_mem c hx)) (acc ++ [c])]
    simp

theorem tryWs_reduce (b r : Str) (hb : ∀ c ∈ b, c ≠ '\n') (hbs : ∃ c ∈ b, isSpaceCh c = false) :
    tryWsFrom ('\n' :: (b ++ r)) (wsRun ('\n' :: (b ++ r))) = findBlock [] (b ++ r) := by
  have hnlws : isSpaceCh '\n' = true := by decide
  have hw : wsRun ('\n' :: (b ++ r)) = wsRun b + 1 := by
    simp [wsRun, hnlws, wsRun_append_left b r hbs]
  have hlt : wsRun b < b.length := wsRun_lt_length b hbs
  have hnn : ∀ k, 1 ≤ k → k ≤ wsRun ('\n' :: (b ++ r)) →
      ¬('\n' :: (b ++ r)).get? k = some '\n' := by
    intro k h1 h2
    rw [hw] at h2
    cases k with
    | zero => omega
    | succ k0 =>
      have hk0 : k0 < b.length := by omega
      have hget : ('\n' :: (b ++ r)).get? (k0 + 1) = b.get? k0 := by
        show (b ++ r).get? k0 = b.get? k0
        exact List.get?_append hk0
      rw [hget]
      intro hc
      exact hb '\n' (List.get?_mem hc) rfl
  rw [tryWsFrom_no_nl ('\n' :: (b ++ r)) (wsRun ('\n' :: (b ++ r))) hnn]
  rw [tryWsFrom, if_pos (show ('\n' :: (b ++ r)).get? 0 = some '\n' from rfl)]
  rfl

theorem tryMatch_mid (ds b t : Str) (hds : ds ≠ []) (hdig : ∀ c ∈ ds, isDigitCh c = true)
    (hbne : b ≠ []) (hb : ∀ c ∈ b, c ≠ '\n') (hbs : ∃ c ∈ b, isSpaceCh c = false)
    (hla : lookaheadOk ('\n' :: t) = true) :
    tryMatch (ds ++ '\n' :: (b ++ '\n' :: t)) = some (natOfDigits ds, b, '\n' :: t) := by
  have hd : digitRun (ds ++ '\n' :: (b ++ '\n' :: t)) = ds.length :=
    digitRun_append_nl ds _ hdig
  have hlen : ds.length ≠ 0 := fun hc => hds (List.length_eq_zero.1 hc)
  unfold tryMatch
  rw [hd]
  rw [if_neg hlen]
  rw [List.drop_left, List.take_left]
  show (match tryWsFrom ('\n' :: (b ++ '\n' :: t)) (wsRun ('\n' :: (b ++ '\n' :: t))) with
    | some (blk, rem) => some (natOfDigits ds, blk, rem)
    | none => none) = _
  rw [tryWs_reduce b ('\n' :: t) hb hbs, findBlock_through b hbne hb [] ('\n' :: t) hla]
  rfl

theorem tryMatch_last (ds b : Str) (hds : ds ≠ []) (hdig : ∀ c ∈ ds, isDigitCh c = true)
    (hb : ∀ c ∈ b, c ≠ '\n') (hbs : ∃ c ∈ b, isSpaceCh c = false) :
    tryMatch (ds ++ '\n' :: (b ++ ['\n'])) = some (natOfDigits ds, b ++ ['\n'], []) := by
  have hd : digitRun (ds ++ '\n' :: (b ++ ['\n'])) = ds.length :=
    digitRun_append_nl ds _ hdig
  have hlen : ds.length ≠ 0 := fun hc => hds (List.length_eq_zero.1 hc)
  unfold tryMatch
  rw [hd]
  rw [if_neg hlen]
  rw [List.drop_left, List.take_left]
  show (match tryWsFrom ('\n' :: (b ++ ['\n'])) (wsRun ('\n' :: (b ++ ['\n']))) with
    | some (blk, rem) => some (natOfDigits ds, blk, rem)
    | none => none) = _
  rw [tryWs_reduce b ['\n'] hb hbs, findBlock_last b hb []]
  rfl

theorem tryMatch_nondigit (c : Char) (t : Str) (h : isDigitCh c = false) :
    tryMatch (c :: t) = none := by
  unfold tryMatch
  simp [digitRun, h]

theorem scanAux_nil : ∀ fuel, scanAux fuel [] = [] := by
  intro fuel
  cases fuel <;> rfl

theorem scanAux_cons_match (fuel : Nat) (s : Str) (n : Nat) (blk rem : Str)
    (hne : s ≠ []) (hm : tryMatch s = some (n, blk, rem)) :
    scanAux (fuel + 1) s = (n, blk) :: scanAux fuel rem := by
  obtain ⟨c, cs, rfl⟩ := List.exists_cons_of_ne_nil hne
  show (match tryMatch (c :: cs) with
    | some (n, blk, rem) => (n, blk) :: scanAux fuel rem
    | none => scanAux fuel cs) = _
  rw [hm]

theorem scanAux_cons_skip (fuel : Nat) (c : Char) (cs : Str) (hm : tryMatch (c :: cs) = none) :
    scanAux (fuel + 1) (c :: cs) = scanAux fuel cs := by
  show (match tryMatch (c :: cs) with
    | some (n, blk, rem) => (n, blk) :: scanAux fuel rem
    | none => scanAux fuel cs) = _
  rw [hm]

theorem renderBlocks_cons (p : Str × Str) (rest : List (Str × Str)) :
    renderBlocks (p :: rest) = p.1 ++ '\n' :: (p.2 ++ '\n' :: renderBlocks rest) := by
  simp [renderBlocks, List.append_assoc]

theorem scanAux_render :
    ∀ bs : List (Str × Str), (∀ p ∈ bs, goodBlock p) →
      ∀ fuel, (renderBlocks bs).length ≤ fuel →
        scanAux fuel (renderBlocks bs) = expectedMatches bs := by
  intro bs
  induction bs with
  | nil => intro _ fuel _; exact scanAux_nil fuel
  | cons p rest ih =>
    intro hgood fuel hfuel
    obtain ⟨hds, hdig, hbnl, hbs⟩ := hgood p (List.mem_cons_self p rest)
    have hbne : p.2 ≠ [] := by
      obtain ⟨c, hc, _⟩ := hbs
      intro hnil
      rw [hnil] at hc
      exact List.not_mem_nil c hc
    have hds1 : 1 ≤ p.1.length := List.length_pos.2 hds
    have hb1 : 1 ≤ p.2.length := List.length_pos.2 hbne
    rw [renderBlocks_cons] at hfuel ⊢
    simp only [List.length_append, List.length_cons] at hfuel
    have hne : p.1 ++ '\n' :: (p.2 ++ '\n' :: renderBlocks rest) ≠ [] := by simp
    cases fuel with
    | zero => omega
    | succ f =>
      cases rest with
      | nil =>
        rw [show renderBlocks ([] : List (Str × Str)) = [] from rfl] at hne ⊢
        have hm := tryMatch_last p.1 p.2 hds hdig hbnl hbs
        rw [scanAux_cons_match f _ _ _ _ hne hm, scanAux_nil f]
        rfl
      | cons q rest' =>
        obtain ⟨hqds, hqdig, _, _⟩ := hgood q (by simp)
        have hla : lookaheadOk ('\n' :: renderBlocks (q :: rest')) = true := by
          rw [renderBlocks_cons]
          exact lookahead_nl_digits q.1 _ hqds hqdig
        have hm := tryMatch_mid p.1 p.2 (renderBlocks (q :: rest')) hds hdig hbne hbnl hbs hla
        rw [scanAux_cons_match f _ _ _ _ hne hm]
        have hR : (renderBlocks (q :: rest')).length + 2 ≤ f + 1 := by omega
        cases f with
        | zero => omega
        | succ f2 =>
          rw [scanAux_cons_skip f2 '\n' _ (tryMatch_nondigit '\n' _ (by decide))]
          rw [ih (fun x hx => hgood x (List.mem_cons_of_mem p hx)) f2 (by omega)]
          rfl

theorem expectedMatches_fst :
    ∀ bs : List (Str × Str),
      (expectedMatches bs).map Prod.fst = bs.map (fun p => natOfDigits p.1) := by
  intro bs
  induction bs with
  | nil => rfl
  | cons p rest ih =>
    cases rest with
    | nil => rfl
    | cons q rest' =>
      show ((natOfDigits p.1, p.2) :: expectedMatches (q :: rest')).map Prod.fst = _
      rw [List.map_cons, ih]
      rfl

/-- C3 counterexample: in the text `"x 1\nA cat."` no line consists only
of digits, yet `parse_script` produces one scene — the regex accepts a
digit run at the end of a line containing other characters, so a line
with non-digit characters besides the digits does start a scene and the
scene count differs from the digit-only-line count. -/
theorem C3_counterexample :
    parse_script "x 1\nA cat.".data = [⟨1, "A cat.".data, [], none⟩] ∧
    digitOnlyLineCount "x 1\nA cat.".data = 0 ∧
    (parse_script "x 1\nA cat.".data).length ≠ digitOnlyLineCount "x 1\nA cat.".data := by
  refine ⟨by decide, by decide, by decide⟩

theorem C3_parse_well_formed (bs : List (Str × Str)) (h : ∀ p ∈ bs, goodBlock p) :
    (parse_script (renderBlocks bs)).map Scene.id = bs.map (fun p => natOfDigits p.1) ∧
    (parse_script (renderBlocks bs)).length = bs.length := by
  have hscan : reFindAll (renderBlocks bs) = expectedMatches bs :=
    scanAux_render bs h (renderBlocks bs).length (Nat.le_refl _)
  have hids : (parse_script (renderBlocks bs)).map Scene.id =
      (expectedMatches bs).map Prod.fst := by
    unfold parse_script
    rw [hscan, List.map_map]
    rfl
  refine ⟨by rw [hids, expectedMatches_fst], ?_⟩
  have hlen := congrArg List.length (hids.trans (expectedMatches_fst bs))
  simpa using hlen

/-- C3 witness: the amended statement at the concrete two-block script
`"1\nA\n2\nB\n"`, whose well-formedness is decided by computation. -/
theorem C3_witness :
    (parse_script (renderBlocks [("1".data, "A".data), ("2".data, "B".data)])).map Scene.id =
      [("1".data, "A".data), ("2".data, "B".data)].map (fun p => natOfDigits p.1) ∧
    (parse_script (renderBlocks [("1".data, "A".data), ("2".data, "B".data)])).length = 2 :=
  C3_parse_well_formed [("1".data, "A".data), ("2".data, "B".data)] (by decide)

end ImageKing
